import Mathlib

/-!
# Verification of the NS_ETL disruption transformation-and-aggregation pipeline

This file gives a shallow embedding of the two core source files of the
repository and proves/refutes the frozen claims about them:

* `src/transformation/cleaners.py` — `DisruptionCleaner.clean_disruptions`
  and `DisruptionCleaner._calculate_impact` (pandas-based cleaning), and
* `src/transformation/aggregators.py` — `COMPLEX_ANALYTICS_QUERY`
  (a SQLite analytics query over the `disruptions` table).

Modelling conventions:

* Timestamps are integers (seconds since the civil epoch 1970-01-01); pandas
  stores timestamps as integers internally, and the ISO-8601 strings parsed by
  `pd.to_datetime` carry whole seconds.
* A pandas `NaN`/`NaT`-able column value is an `Option`; `NaN` comparisons
  (which are `False` in pandas) become explicit `none` cases.
* Durations, averages, rates and percentile ranks are exact rationals `ℚ`
  (the floats computed by pandas/SQLite are exact on these operations for
  realistic magnitudes; no claim depends on float rounding).
* Python exceptions escaping `clean_disruptions` are modelled by `Except`:
  `TypeError` for iterating a float (`NaN` routes), `KeyError` for a route
  descriptor without a `'code'` key.
-/

set_option autoImplicit false

/-! ## Python string primitives (`str.lower`, `str.strip`) -/

/-- One character of `str.lower` (ASCII letters; `pd.Series.str.lower`). -/
def lowerChar (c : Char) : Char :=
  if 65 ≤ c.toNat ∧ c.toNat ≤ 90 then Char.ofNat (c.toNat + 32) else c

/-- `str.lower` as used by `df['type'].str.lower()`. -/
def py_lower (s : String) : String := ⟨s.data.map lowerChar⟩

/-- Python whitespace as stripped by `str.strip()`. -/
def wsChar (c : Char) : Bool :=
  c = ' ' || c = '\t' || c = '\n' || c = '\r' || c = '\x0b' || c = '\x0c'

/-- `str.strip` as used by `df['title'].str.strip()`. -/
def py_strip (s : String) : String :=
  ⟨((s.data.dropWhile wsChar).reverse.dropWhile wsChar).reverse⟩

/-! ## `pd.to_datetime(·, errors='coerce')` on the ISO-8601 subset used by the feed -/

def isDigitChar (c : Char) : Bool := decide (48 ≤ c.toNat) && decide (c.toNat ≤ 57)

/-- Value of a nonempty all-digit character run, else `none`. -/
def digitsVal (l : List Char) : Option ℕ :=
  if l ≠ [] ∧ l.all isDigitChar = true then
    some (l.foldl (fun a c => a * 10 + (c.toNat - 48)) 0)
  else none

/-- Split a character list on a separator character. -/
def splitOnChar (sep : Char) : List Char → List (List Char)
  | [] => [[]]
  | c :: cs =>
    match splitOnChar sep cs, decide (c = sep) with
    | r, true => [] :: r
    | r0 :: rs, false => (c :: r0) :: rs
    | [], false => [[c]]

/-- Days since 1970-01-01 of a civil date (Howard Hinnant's `days_from_civil`). -/
def daysFromCivil (y m d : ℤ) : ℤ :=
  let y' := if m ≤ 2 then y - 1 else y
  let era := Int.fdiv y' 400
  let yoe := y' - era * 400
  let mp := if 2 < m then m - 3 else m + 9
  let doy := Int.fdiv (153 * mp + 2) 5 + d - 1
  let doe := yoe * 365 + Int.fdiv yoe 4 - Int.fdiv yoe 100 + doy
  era * 146097 + doe - 719468

/-- Parse `YYYY-MM-DD` to a day number. -/
def parseDate (l : List Char) : Option ℤ :=
  match (splitOnChar '-' l).map digitsVal with
  | [some y, some m, some d] =>
    if 1 ≤ m ∧ m ≤ 12 ∧ 1 ≤ d ∧ d ≤ 31 then
      some (daysFromCivil (y : ℤ) (m : ℤ) (d : ℤ))
    else none
  | _ => none

/-- Parse `HH:MM:SS` to seconds past midnight. -/
def parseTime (l : List Char) : Option ℕ :=
  match (splitOnChar ':' l).map digitsVal with
  | [some h, some m, some s] =>
    if h ≤ 23 ∧ m ≤ 59 ∧ s ≤ 59 then some (h * 3600 + m * 60 + s) else none
  | _ => none

def dateTimeVal (d t : List Char) : Option ℤ :=
  match parseDate d, parseTime t with
  | some n, some s => some (n * 86400 + (s : ℤ))
  | _, _ => none

/-- `pd.to_datetime(x, errors='coerce')` on the ISO-8601 forms used by the NS
feed (`YYYY-MM-DD`, `YYYY-MM-DDTHH:MM:SS`, `YYYY-MM-DD HH:MM:SS`); a missing
value or any other string coerces to `NaT` (`none`). -/
def pd_to_datetime : Option String → Option ℤ
  | none => none
  | some s =>
    match splitOnChar 'T' s.data with
    | [d] =>
      match splitOnChar ' ' d with
      | [d0] => (parseDate d0).map (fun n => n * 86400)
      | [d0, t0] => dateTimeVal d0 t0
      | _ => none
    | [d0, t0] => dateTimeVal d0 t0
    | _ => none

/-! ## Data model of the Cleaner (`src/transformation/cleaners.py`) -/

/-- One element of a raw record's `routes` sequence: a station descriptor,
a loosely-typed dict whose `'code'` key may be missing. -/
structure Station where
  code : Option String
deriving DecidableEq

/-- A Raw Disruption Record (one row of `raw_df`); every field may be
missing (`NaN` in the frame). `end` is spelled `end_` (Lean keyword). -/
structure RawRecord where
  type : Option String
  title : Option String
  start : Option String
  end_ : Option String
  routes : Option (List Station)
deriving DecidableEq

/-- A Python exception escaping `clean_disruptions`:
`typeError` for `','.join(... for s in x)` when `x` is the float `NaN`,
`keyError` for `s['code']` when a route descriptor has no `'code'` key. -/
inductive CleanError where
  | typeError
  | keyError
deriving DecidableEq

/-- A row of the cleaned frame returned by `clean_disruptions`: the original
columns (with `type` lower-cased and `title` stripped in place) plus the
derived columns, in the state they have when the function returns. -/
structure CleanedRow where
  type : Option String
  title : Option String
  start : Option String
  end_ : Option String
  routes : Option (List Station)
  start_time : Option ℤ
  end_time : ℤ
  duration_minutes : Option ℚ
  is_ongoing : Bool
  impact_level : ℤ
  affected_stations : Option String
deriving DecidableEq

/-- `[s['code'] for s in x]`: all codes, or a `KeyError` if one is missing. -/
def station_codes : List Station → Option (List String)
  | [] => some []
  | s :: l =>
    match s.code, station_codes l with
    | some c, some cs => some (c :: cs)
    | _, _ => none

/-- `','.join(strings)`. -/
def joinComma : List String → String
  | [] => ""
  | [s] => s
  | s :: l₂ => s ++ "," ++ joinComma l₂

/-- `lambda x: ','.join([s['code'] for s in x]) if x else None` applied to the
`routes` cell: a missing (`NaN`) cell is truthy and not iterable (`TypeError`);
an empty list is falsy (`None`); otherwise the joined codes, with a `KeyError`
if a descriptor lacks a code. -/
def join_station_codes : Option (List Station) → Except CleanError (Option String)
  | none => .error .typeError
  | some [] => .ok none
  | some (s :: l) =>
    match station_codes (s :: l) with
    | some cs => .ok (some (joinComma cs))
    | none => .error .keyError

/-- `NaN`-aware `>`: pandas comparisons with `NaN` are `False`. -/
def gtNaN (x : Option ℚ) (c : ℚ) : Bool :=
  match x with
  | none => false
  | some d => decide (c < d)

/-- `DisruptionCleaner._calculate_impact(row)`: the row's (already
lower-cased) `type` and its `duration_minutes` decide the severity. -/
def calculate_impact (ty : Option String) (dur : Option ℚ) : ℤ :=
  if ty = some "cancellation" then 5
  else if gtNaN dur 120 then 4
  else if gtNaN dur 60 then 3
  else 2

/-- The per-row effect of the column operations of `clean_disruptions`, in
source order: normalize `type`/`title`, parse `start`/`end`, compute
`duration_minutes` (before the `end_time` fill, as in the source), flag
`is_ongoing`, fill `end_time` with `datetime.now()` (the `now` argument),
classify impact, extract `affected_stations` (the only fallible step). -/
def cleanRow (now : ℤ) (r : RawRecord) : Except CleanError CleanedRow :=
  let ty := r.type.map py_lower
  let ti := r.title.map py_strip
  let st := pd_to_datetime r.start
  let en := pd_to_datetime r.end_
  let dur : Option ℚ :=
    match st, en with
    | some s, some e => some (((e - s : ℤ) : ℚ) / 60)
    | _, _ => none
  let ongoing := en.isNone
  let en' := en.getD now
  let impact := calculate_impact ty dur
  match join_station_codes r.routes with
  | .error e => .error e
  | .ok stations =>
    .ok { type := ty, title := ti, start := r.start, end_ := r.end_, routes := r.routes,
          start_time := st, end_time := en', duration_minutes := dur, is_ongoing := ongoing,
          impact_level := impact, affected_stations := stations }

/-- The column operations applied to every row of the frame (first raised
exception aborts the whole cleaning, as in pandas). -/
def cleanRows (now : ℤ) : List RawRecord → Except CleanError (List CleanedRow)
  | [] => .ok []
  | r :: rs =>
    match cleanRow now r with
    | .error e => .error e
    | .ok row =>
      match cleanRows now rs with
      | .error e => .error e
      | .ok rows => .ok (row :: rows)

/-- The final row filters of `clean_disruptions`:
`df = df[df['title'].str.len() > 5]` and `df = df[df['duration_minutes'] >= 0]`
(`NaN` lengths and durations compare `False` and are dropped). -/
def keepRow (row : CleanedRow) : Bool :=
  (match row.title with
   | some t => decide (5 < t.length)
   | none => false) &&
  (match row.duration_minutes with
   | some d => decide (0 ≤ d)
   | none => false)

/-- `DisruptionCleaner.clean_disruptions(raw_df)` at time `now`. -/
def clean_disruptions (now : ℤ) (raw_df : List RawRecord) :
    Except CleanError (List CleanedRow) :=
  (cleanRows now raw_df).map (List.filter keepRow)

/-- The call as seen by the caller's frame: `df = raw_df.copy()` makes `df` a
distinct object, so every later column assignment and row filter targets `df`
only and the caller's `raw_df` binding still holds the original frame when the
call returns.  The first component is the content of `raw_df` after the call
(had the source aliased `df = raw_df`, it would be the mutated frame instead);
the function performs no store writes, its only output is the returned frame. -/
def clean_disruptions_frames (now : ℤ) (raw_df : List RawRecord) :
    List RawRecord × Except CleanError (List CleanedRow) :=
  (raw_df, clean_disruptions now raw_df)

/-- Raw-record view of a cleaned row (the cleaned frame still carries all the
raw columns: `type`/`title` hold the normalized text, `start`/`end`/`routes`
are untouched). -/
def rowToRaw (row : CleanedRow) : RawRecord :=
  { type := row.type, title := row.title, start := row.start,
    end_ := row.end_, routes := row.routes }

/-! ## Data model of the Aggregator (`src/transformation/aggregators.py`,
`COMPLEX_ANALYTICS_QUERY`) -/

/-- A row of the `disruptions` table as read by the analytics query
(only the referenced columns). -/
structure DbRow where
  type : String
  start_time : ℤ
  end_time : ℤ
  affected_stations : Option String
deriving DecidableEq

/-- `DATE(start_time)`: the (ordered) day of a timestamp. -/
def dateOf (t : ℤ) : ℤ := Int.fdiv t 86400

/-- SQLite `ROUND(x)` to an integer: half away from zero. -/
def roundHalfAwayFromZero (x : ℚ) : ℤ :=
  if x < 0 then -⌊-x + 1/2⌋ else ⌊x + 1/2⌋

/-- SQLite `ROUND(x, 2)`. -/
def round2 (x : ℚ) : ℚ := (roundHalfAwayFromZero (100 * x) : ℚ) / 100

/-- Lexicographic byte order on strings (SQLite's default text collation),
kept kernel-computable. -/
def charListLe : List Char → List Char → Bool
  | [], _ => true
  | _ :: _, [] => false
  | c :: cs, d :: ds =>
    if c.toNat < d.toNat then true
    else if d.toNat < c.toNat then false
    else charListLe cs ds

def strLe (a b : String) : Bool := charListLe a.data b.data

/-- Insert into a sorted list (used to give the query's `ORDER BY` /
window-function orderings a deterministic, computable meaning). -/
def insertLeB {α : Type} (le : α → α → Bool) (a : α) : List α → List α
  | [] => [a]
  | b :: l => if le a b then a :: b :: l else b :: insertLeB le a l

/-- Sort by a boolean comparison (insertion sort; total comparators are used
everywhere, so the result is a deterministic model of SQL ordering). -/
def sortByB {α : Type} (le : α → α → Bool) : List α → List α
  | [] => []
  | a :: l => insertLeB le a (sortByB le l)

/-- Map with the element's position (used for the `ROWS BETWEEN 6 PRECEDING
AND CURRENT ROW` frame). -/
def attachIdx {α β : Type} (f : ℕ → α → β) : ℕ → List α → List β
  | _, [] => []
  | i, a :: l => f i a :: attachIdx f (i + 1) l

/-- `WHERE start_time >= date('now', '-30 days')`; the window boundary read at
call time is the `cutoff` argument. -/
def inWindow (cutoff : ℤ) (r : DbRow) : Bool := decide (cutoff ≤ r.start_time)

def windowRows (cutoff : ℤ) (table : List DbRow) : List DbRow :=
  table.filter (inWindow cutoff)

/-- `GROUP BY DATE(start_time), type` key of a row. -/
def groupKey (r : DbRow) : ℤ × String := (dateOf r.start_time, r.type)

def keyLe (a b : ℤ × String) : Bool :=
  decide (a.1 < b.1) || (decide (a.1 = b.1) && strLe a.2 b.2)

/-- The distinct `(disruption_date, type)` group keys of the filtered rows, in
the order the window function `SUM(COUNT(*)) OVER (ORDER BY DATE(start_time)
ROWS BETWEEN 6 PRECEDING AND CURRENT ROW)` ranges over them: ascending by
date.  SQLite leaves the order of same-date peers unspecified; the embedding
fixes it by type text order, a choice no theorem below depends on. -/
def dmKeys (cutoff : ℤ) (table : List DbRow) : List (ℤ × String) :=
  sortByB keyLe ((windowRows cutoff table).map groupKey).dedup

def groupMembers (cutoff : ℤ) (table : List DbRow) (k : ℤ × String) : List DbRow :=
  (windowRows cutoff table).filter (fun r => decide (groupKey r = k))

/-- `COUNT(*)` of a group: `incident_count`. -/
def dmCount (cutoff : ℤ) (table : List DbRow) (k : ℤ × String) : ℕ :=
  (groupMembers cutoff table k).length

/-- `AVG((julianday(end_time) - julianday(start_time)) * 1440)` of a group:
the mean duration in minutes (unrounded; `ROUND(·, 2)` is applied in the
outer `SELECT`). -/
def dmAvgDuration (cutoff : ℤ) (table : List DbRow) (k : ℤ × String) : ℚ :=
  ((groupMembers cutoff table k).map
      (fun r => ((r.end_time - r.start_time : ℤ) : ℚ) / 60)).sum
    / (dmCount cutoff table k : ℚ)

def dmCounts (cutoff : ℤ) (table : List DbRow) : List ℕ :=
  (dmKeys cutoff table).map (dmCount cutoff table)

/-- The frame sum `ROWS BETWEEN 6 PRECEDING AND CURRENT ROW` at position `i`:
the current row plus (up to) six preceding rows — over the single interleaved
date-ordered row sequence, the query has no `PARTITION BY`. -/
def sliceSum7 (counts : List ℕ) (i : ℕ) : ℕ :=
  ((counts.take (i + 1)).drop (i - 6)).sum

/-- `json_each('["' || REPLACE(affected_stations, ',', '","') || '"]')` with
`TRIM(value)`: the comma-split station codes of one row; a `NULL` cell
contributes no rows (string concatenation with `NULL` is `NULL`). -/
def splitStations : Option String → List String
  | none => []
  | some s => (splitOnChar ',' s.data).map (fun l => py_strip ⟨l⟩)

/-- All station occurrences of the `station_impact` CTE.  Its inner `SELECT`
reads `FROM disruptions` with no `WHERE`, so the whole table contributes —
not only the 30-day window. -/
def stationOccurrences (table : List DbRow) : List String :=
  (table.map (fun r => splitStations r.affected_stations)).flatten

/-- The distinct station codes (`GROUP BY station_code`). -/
def stationKeys (table : List DbRow) : List String :=
  (stationOccurrences table).dedup

/-- `COUNT(*) as disruption_count` of one station. -/
def disruption_count (table : List DbRow) (s : String) : ℕ :=
  ((stationOccurrences table).filter (fun t => t == s)).length

/-- `PERCENT_RANK() OVER (ORDER BY COUNT(*))`: `(rank - 1) / (rows - 1)`,
defined as `0` when the partition has at most one row (SQLite returns `0.0`
for a single row instead of dividing by zero). -/
def severity_percentile (table : List DbRow) (s : String) : ℚ :=
  if (stationKeys table).length ≤ 1 then 0
  else
    (((stationKeys table).filter
        (fun t => decide (disruption_count table t < disruption_count table s))).length : ℚ)
      / (((stationKeys table).length : ℚ) - 1)

def stationLe (table : List DbRow) (a b : String) : Bool :=
  decide (disruption_count table a < disruption_count table b) ||
    (decide (disruption_count table a = disruption_count table b) && strLe a b)

/-- The `station_impact` CTE rows in the order SQLite materializes them: the
window function sorts by `COUNT(*)` ascending (ties by code, a deterministic
refinement of SQLite's unspecified peer order). -/
def station_impact (table : List DbRow) : List String :=
  sortByB (stationLe table) (stationKeys table)

/-- `(SELECT si.station_code FROM station_impact si WHERE
si.severity_percentile > 0.9 LIMIT 1)`: the first station in materialization
order whose percentile strictly exceeds 0.9; `NULL` when there is none. -/
def worst_station_subquery (table : List DbRow) : Option String :=
  ((station_impact table).filter
      (fun s => decide ((9 : ℚ)/10 < severity_percentile table s))).head?

/-- `SUM(CASE WHEN dm.type = 'cancellation' THEN 1 ELSE 0 END) OVER
(PARTITION BY dm.disruption_date)`: the number of *group rows* of that date
whose type is `'cancellation'` (one per type, so `0` or `1`) — not the
number of cancellation incidents. -/
def cancRowCount (cutoff : ℤ) (table : List DbRow) (d : ℤ) : ℕ :=
  ((dmKeys cutoff table).filter
      (fun k => decide (k.1 = d) && (k.2 == "cancellation"))).length

/-- `SUM(dm.incident_count) OVER (PARTITION BY dm.disruption_date)`. -/
def dateIncidentSum (cutoff : ℤ) (table : List DbRow) (d : ℤ) : ℕ :=
  (((dmKeys cutoff table).filter (fun k => decide (k.1 = d))).map
      (dmCount cutoff table)).sum

/-- `ROUND(100.0 * <cancellation row count> / <incident sum>, 2)`. -/
def cancellation_rate (cutoff : ℤ) (table : List DbRow) (d : ℤ) : ℚ :=
  round2 (100 * (cancRowCount cutoff table d : ℚ) / (dateIncidentSum cutoff table d : ℚ))

/-- One output row of the query (`dm.*` plus the attached columns). -/
structure MetricsRow where
  disruption_date : ℤ
  type : String
  incident_count : ℕ
  avg_duration : ℚ
  rolling_7day_total : ℕ
  worst_station : Option String
  cancellation_rate_pct : ℚ
deriving DecidableEq

/-- The output row built from the group key at position `i` of the
date-ordered group sequence. -/
def dmRow (cutoff : ℤ) (table : List DbRow) (i : ℕ) (k : ℤ × String) : MetricsRow :=
  { disruption_date := k.1
    type := k.2
    incident_count := dmCount cutoff table k
    avg_duration := round2 (dmAvgDuration cutoff table k)
    rolling_7day_total := sliceSum7 (dmCounts cutoff table) i
    worst_station := worst_station_subquery table
    cancellation_rate_pct := cancellation_rate cutoff table k.1 }

/-- `ORDER BY dm.disruption_date DESC, dm.incident_count DESC` (ties broken
deterministically by type text order, which no theorem depends on). -/
def finalLe (r1 r2 : MetricsRow) : Bool :=
  decide (r2.disruption_date < r1.disruption_date) ||
    (decide (r1.disruption_date = r2.disruption_date) &&
      (decide (r2.incident_count < r1.incident_count) ||
        (decide (r1.incident_count = r2.incident_count) && strLe r1.type r2.type)))

/-- `COMPLEX_ANALYTICS_QUERY` over the `disruptions` table, with the window
boundary `date('now', '-30 days')` passed as `cutoff`. -/
def complex_analytics_query (cutoff : ℤ) (table : List DbRow) : List MetricsRow :=
  sortByB finalLe (attachIdx (dmRow cutoff table) 0 (dmKeys cutoff table))

/-! ## Concrete inputs used by the claim theorems -/

/-- An ongoing disruption: `start` parses, `end` is absent, the title and
routes are sound. -/
def exOngoing : RawRecord :=
  { type := some "delay"
    title := some "signal failure at Utrecht"
    start := some "2024-01-01T08:00:00"
    end_ := none
    routes := some [⟨some "UT"⟩] }

/-- A `disruptions` table with a single date carrying 3 `cancellation` and
7 `delay` incidents. -/
def exRate : List DbRow :=
  [{ type := "cancellation", start_time := 0, end_time := 0, affected_stations := none },
   { type := "cancellation", start_time := 100, end_time := 100, affected_stations := none },
   { type := "cancellation", start_time := 200, end_time := 200, affected_stations := none },
   { type := "delay", start_time := 1000, end_time := 1000, affected_stations := none },
   { type := "delay", start_time := 1100, end_time := 1100, affected_stations := none },
   { type := "delay", start_time := 1200, end_time := 1200, affected_stations := none },
   { type := "delay", start_time := 1300, end_time := 1300, affected_stations := none },
   { type := "delay", start_time := 1400, end_time := 1400, affected_stations := none },
   { type := "delay", start_time := 1500, end_time := 1500, affected_stations := none },
   { type := "delay", start_time := 1600, end_time := 1600, affected_stations := none }]

/-! ## C1 — ongoing disruptions (absent/unparsable `end`) -/

/-- **C1** (code bug): a record whose `start` parses and whose `end` is
absent is *not* kept.  The source computes `duration_minutes` from
`end_time` *before* `fillna(datetime.now())`, so the duration is `NaN` and
the `df['duration_minutes'] >= 0` filter drops the row — even though the
ongoing handling did flag it `is_ongoing = True` and did set `end_time` to
"now" (second conjunct), showing the intent the claim describes. -/
theorem ongoing_record_dropped :
    clean_disruptions 1704100000 [exOngoing] = .ok [] ∧
      (cleanRow 1704100000 exOngoing).toOption.map
          (fun row => (row.is_ongoing, row.end_time, row.duration_minutes))
        = some (true, 1704100000, none) := by
  exact ⟨by with_unfolding_all rfl, by with_unfolding_all rfl⟩

/-! ## C2 — cancellation rate -/

/-- **C2** (code bug): on a date with 3 `cancellation` and 7 `delay`
incidents the query returns `cancellation_rate_pct = 10.0` for both type
rows, not the claimed `30.0`: the numerator
`SUM(CASE WHEN dm.type = 'cancellation' THEN 1 ELSE 0 END)` counts grouped
type-rows (here `1`), not cancellation incidents (here `3`). -/
theorem cancellation_rate_counts_rows :
    (complex_analytics_query (-100) exRate).map
        (fun r => (r.type, r.incident_count, r.cancellation_rate_pct))
      = [("delay", 7, 10), ("cancellation", 3, 10)] := by
  with_unfolding_all rfl

/-! ## General lemmas about the sorting/indexing combinators -/

theorem mem_insertLeB {α : Type} {le : α → α → Bool} {a x : α} {l : List α} :
    a ∈ insertLeB le x l ↔ a = x ∨ a ∈ l := by
  induction l with
  | nil => simp [insertLeB]
  | cons b t ih =>
    by_cases hb : le x b
    · simp [insertLeB, hb]
    · simp only [insertLeB, hb, Bool.false_eq_true, if_false, List.mem_cons, ih]
      tauto

theorem mem_sortByB {α : Type} {le : α → α → Bool} {a : α} {l : List α} :
    a ∈ sortByB le l ↔ a ∈ l := by
  induction l with
  | nil => simp [sortByB]
  | cons b t ih => simp [sortByB, mem_insertLeB, ih]

theorem insertLeB_perm {α : Type} (le : α → α → Bool) (x : α) (l : List α) :
    List.Perm (insertLeB le x l) (x :: l) := by
  induction l with
  | nil => rfl
  | cons b t ih =>
    by_cases hb : le x b
    · simp [insertLeB, hb]
    · simp only [insertLeB, hb, Bool.false_eq_true, if_false]
      exact ((ih.cons b).trans (List.Perm.swap x b t))

theorem sortByB_perm {α : Type} (le : α → α → Bool) (l : List α) :
    List.Perm (sortByB le l) l := by
  induction l with
  | nil => rfl
  | cons b t ih => exact (insertLeB_perm le b (sortByB le t)).trans (ih.cons b)

theorem mem_attachIdx {α β : Type} (f : ℕ → α → β) (b : β) :
    ∀ (l : List α) (i : ℕ), b ∈ attachIdx f i l ↔
      ∃ j, ∃ hj : j < l.length, b = f (i + j) (l.get ⟨j, hj⟩) := by
  intro l
  induction l with
  | nil => intro i; simp [attachIdx]
  | cons a t ih =>
    intro i
    simp only [attachIdx, List.mem_cons, ih]
    constructor
    · rintro (rfl | ⟨j, hj, rfl⟩)
      · exact ⟨0, by simp, by simp⟩
      · refine ⟨j + 1, by simpa using Nat.succ_lt_succ hj, ?_⟩
        simp [Nat.add_assoc, Nat.add_comm 1 j]
    · rintro ⟨j, hj, rfl⟩
      cases j with
      | zero => left; simp
      | succ j =>
        right
        refine ⟨j, by simpa using Nat.lt_of_succ_lt_succ hj, ?_⟩
        simp [Nat.add_assoc, Nat.add_comm 1 j]

/-- Every output row of the query is the row built from some position of the
date-ordered group-key sequence. -/
theorem query_row_shape (cutoff : ℤ) (table : List DbRow) (row : MetricsRow)
    (h : row ∈ complex_analytics_query cutoff table) :
    ∃ i, ∃ hi : i < (dmKeys cutoff table).length,
      row = dmRow cutoff table i ((dmKeys cutoff table).get ⟨i, hi⟩) := by
  unfold complex_analytics_query at h
  rw [mem_sortByB, mem_attachIdx] at h
  obtain ⟨j, hj, rfl⟩ := h
  exact ⟨j, hj, by rw [Nat.zero_add]⟩

theorem dmKeys_nodup (cutoff : ℤ) (table : List DbRow) : (dmKeys cutoff table).Nodup :=
  ((sortByB_perm keyLe _).nodup_iff).mpr (List.nodup_dedup _)

/-- Position of the first occurrence of an element in a list. -/
def posOf {α : Type} [DecidableEq α] (a : α) : List α → ℕ
  | [] => 0
  | b :: l => if a = b then 0 else posOf a l + 1

theorem posOf_get {α : Type} [DecidableEq α] :
    ∀ {l : List α}, l.Nodup → ∀ (i : ℕ) (hi : i < l.length), posOf (l.get ⟨i, hi⟩) l = i := by
  intro l
  induction l with
  | nil => intro _ i hi; exact absurd hi (by simp)
  | cons b t ih =>
    intro hnd i hi
    rcases List.nodup_cons.mp hnd with ⟨hb, ht⟩
    cases i with
    | zero => simp [posOf]
    | succ i =>
      have hit : i < t.length := Nat.lt_of_succ_lt_succ hi
      have hne : t.get ⟨i, hit⟩ ≠ b := fun he => hb (he ▸ List.get_mem t _ _)
      simp only [List.get_cons_succ, posOf, if_neg hne]
      exact congrArg (· + 1) (ih ht i hit)

/-! ## C3 — the rolling 7-day total -/

/-- Eight group rows with `incident_count = 1` each: type `"a"` on days 1–7
and type `"b"` on day 8 only. -/
def exRolling : List DbRow :=
  [{ type := "a", start_time := 1 * 86400, end_time := 1 * 86400, affected_stations := none },
   { type := "a", start_time := 2 * 86400, end_time := 2 * 86400, affected_stations := none },
   { type := "a", start_time := 3 * 86400, end_time := 3 * 86400, affected_stations := none },
   { type := "a", start_time := 4 * 86400, end_time := 4 * 86400, affected_stations := none },
   { type := "a", start_time := 5 * 86400, end_time := 5 * 86400, affected_stations := none },
   { type := "a", start_time := 6 * 86400, end_time := 6 * 86400, affected_stations := none },
   { type := "a", start_time := 7 * 86400, end_time := 7 * 86400, affected_stations := none },
   { type := "b", start_time := 8 * 86400, end_time := 8 * 86400, affected_stations := none }]

/-- The rolling total as the claim states it: for a row with date `d` and
type `ty`, sum `incident_count` over `ty`'s own group rows across that
type's (up to) 7 most recent occurrence dates up to and including `d`. -/
def rollingPerTypeClaim (cutoff : ℤ) (table : List DbRow) (d : ℤ) (ty : String) : ℕ :=
  ((((dmKeys cutoff table).filter (fun k => k.2 == ty && decide (k.1 ≤ d))).map
      (dmCount cutoff table)).reverse.take 7).sum

/-- **C3, counterexample**: on `exRolling` the claim fails — the day-8 `"b"`
row's `rolling_7day_total` is 7 (the frame spans the interleaved rows of all
types: six `"a"` rows and itself), while the claimed per-type window gives 1
(type `"b"` has a single occurrence date). -/
theorem rolling_window_not_per_type :
    ((complex_analytics_query 0 exRolling).all
        (fun r => r.rolling_7day_total ==
          rollingPerTypeClaim 0 exRolling r.disruption_date r.type)) = false := by
  with_unfolding_all rfl

/-- **C3, amended**: the window `SUM(COUNT(*)) OVER (ORDER BY
DATE(start_time) ROWS BETWEEN 6 PRECEDING AND CURRENT ROW)` has no
`PARTITION BY`: every output row's `rolling_7day_total` sums
`incident_count` over the current row and the (up to) six immediately
preceding rows of the single date-ordered group-row sequence, interleaving
all disruption types. -/
theorem rolling_total_over_interleaved_rows (cutoff : ℤ) (table : List DbRow)
    (row : MetricsRow) (h : row ∈ complex_analytics_query cutoff table) :
    (row.disruption_date, row.type) ∈ dmKeys cutoff table ∧
      row.rolling_7day_total =
        sliceSum7 (dmCounts cutoff table)
          (posOf (row.disruption_date, row.type) (dmKeys cutoff table)) := by
  obtain ⟨i, hi, rfl⟩ := query_row_shape cutoff table row h
  have hkey : ((dmRow cutoff table i ((dmKeys cutoff table).get ⟨i, hi⟩)).disruption_date,
      (dmRow cutoff table i ((dmKeys cutoff table).get ⟨i, hi⟩)).type)
      = (dmKeys cutoff table).get ⟨i, hi⟩ := by
    simp [dmRow]
  constructor
  · rw [hkey]; exact List.get_mem _ _ _
  · rw [hkey, posOf_get (dmKeys_nodup cutoff table) i hi]
    rfl

/-- **C3, witness**: the day-8 `"b"` row of `exRolling` is an output row;
its key sits at position 7 of the group sequence and its rolling total is
the slice sum there (which is 7). -/
theorem rolling_total_over_interleaved_rows_witness :
    (⟨8, "b", 1, 0, 7, none, 0⟩ : MetricsRow) ∈ complex_analytics_query 0 exRolling ∧
      ((8 : ℤ), "b") ∈ dmKeys 0 exRolling ∧
      (7 : ℕ) = sliceSum7 (dmCounts 0 exRolling) (posOf ((8 : ℤ), "b") (dmKeys 0 exRolling)) := by
  have hmem : (⟨8, "b", 1, 0, 7, none, 0⟩ : MetricsRow) ∈ complex_analytics_query 0 exRolling :=
    of_decide_eq_true (by with_unfolding_all rfl)
  have h := rolling_total_over_interleaved_rows 0 exRolling _ hmem
  exact ⟨hmem, h.1, h.2⟩

/-! ## C4 — per-record error handling -/

/-- A perfectly sound record. -/
def exGood : RawRecord :=
  { type := some "delay"
    title := some "points failure near Amsterdam"
    start := some "2024-01-02T10:00:00"
    end_ := some "2024-01-02T11:30:00"
    routes := some [⟨some "ASD"⟩, ⟨some "UT"⟩] }

/-- A batch of two records where exactly one is malformed in the way the
claim names: a route descriptor without a station code. -/
def exBadRouteBatch : List RawRecord :=
  [exGood,
   { type := some "delay"
     title := some "broken overhead wire"
     start := some "2024-01-02T12:00:00"
     end_ := some "2024-01-02T12:30:00"
     routes := some [⟨none⟩] }]

/-- A batch with per-record damage the Cleaner does tolerate: an unparsable
`start`, a short title — plus one good record. -/
def exTolerableBatch : List RawRecord :=
  [{ type := some "delay"
     title := some "engineering works Rotterdam"
     start := some "garbage"
     end_ := some "2024-01-03T09:00:00"
     routes := some [⟨some "RTD"⟩] },
   { type := some "delay"
     title := some "ab"
     start := some "2024-01-03T08:00:00"
     end_ := some "2024-01-03T09:00:00"
     routes := some [] },
   exGood]

/-- `routes` is a list of descriptors that all carry a station code — the
condition under which the station-extraction lambda cannot raise. -/
def routesOk (r : RawRecord) : Bool :=
  match r.routes with
  | none => false
  | some l => l.all (fun s => s.code.isSome)

/-- Cleaning succeeded and dropped rows at worst (no exception, output no
longer than the input). -/
def cleanSucceedsWithin (now : ℤ) (raw : List RawRecord) : Prop :=
  match clean_disruptions now raw with
  | .ok rows => rows.length ≤ raw.length
  | .error _ => False

theorem cleanRows_length (now : ℤ) :
    ∀ (raw : List RawRecord) (rows : List CleanedRow),
      cleanRows now raw = .ok rows → rows.length = raw.length := by
  intro raw
  induction raw with
  | nil => intro rows h; cases h; rfl
  | cons r rs ih =>
    intro rows h
    unfold cleanRows at h
    split at h
    · exact absurd h (by simp)
    · split at h
      · exact absurd h (by simp)
      · rename_i row hrow rest hrest
        cases h
        simpa using ih rest hrest

theorem cleanRow_ok_of_routesOk (now : ℤ) (r : RawRecord) (h : routesOk r = true) :
    ∃ row, cleanRow now r = .ok row := by
  unfold routesOk at h
  cases hr : r.routes with
  | none => rw [hr] at h; cases h
  | some l =>
    rw [hr] at h
    have hst : ∃ o, join_station_codes (some l) = .ok o := by
      cases l with
      | nil => exact ⟨none, rfl⟩
      | cons s t =>
        have : ∀ (m : List Station), m.all (fun s => s.code.isSome) = true →
            ∃ cs, station_codes m = some cs := by
          intro m
          induction m with
          | nil => intro _; exact ⟨[], rfl⟩
          | cons a b ihm =>
            intro hm
            simp only [List.all_cons, Bool.and_eq_true] at hm
            obtain ⟨ca, hca⟩ := Option.isSome_iff_exists.mp hm.1
            obtain ⟨cs, hcs⟩ := ihm hm.2
            exact ⟨ca :: cs, by simp [station_codes, hca, hcs]⟩
        obtain ⟨cs, hcs⟩ := this (s :: t) h
        exact ⟨some (joinComma cs), by simp [join_station_codes, hcs]⟩
    obtain ⟨o, ho⟩ := hst
    unfold cleanRow
    rw [hr, ho]
    exact ⟨_, rfl⟩

theorem cleanRows_ok_of_routesOk (now : ℤ) :
    ∀ (raw : List RawRecord), (∀ r ∈ raw, routesOk r = true) →
      ∃ rows, cleanRows now raw = .ok rows := by
  intro raw
  induction raw with
  | nil => intro _; exact ⟨[], rfl⟩
  | cons r rs ih =>
    intro h
    obtain ⟨row, hrow⟩ := cleanRow_ok_of_routesOk now r (h r (List.mem_cons_self r rs))
    obtain ⟨rows, hrows⟩ := ih (fun x hx => h x (List.mem_cons_of_mem r hx))
    exact ⟨row :: rows, by simp [cleanRows, hrow, hrows]⟩

/-- **C4, counterexample**: the claim says the Cleaner never raises for a
single bad record, naming "a route descriptor without a station code" as an
example of a malformed record; but on `exBadRouteBatch` — a well-formed
sequence of records with exactly one such bad record — `clean_disruptions`
raises (`s['code']` is a `KeyError`) instead of dropping the record. -/
theorem single_bad_route_raises :
    clean_disruptions 0 exBadRouteBatch = .error .keyError := by
  with_unfolding_all rfl

/-- **C4, amended**: per-record damage in timestamps or titles degrades to a
dropped row and the Cleaner returns the cleaned remainder (never more rows
than records); but this only holds when every record's `routes` is a list of
descriptors each carrying a station code — a single record violating that
makes the whole cleaning raise, even though the input is a perfectly good
sequence of records. -/
theorem clean_tolerates_bad_records (now : ℤ) (raw : List RawRecord)
    (h : ∀ r ∈ raw, routesOk r = true) : cleanSucceedsWithin now raw := by
  obtain ⟨rows, hrows⟩ := cleanRows_ok_of_routesOk now raw h
  unfold cleanSucceedsWithin clean_disruptions
  rw [hrows]
  simp only [Except.map]
  calc (List.filter keepRow rows).length ≤ rows.length := List.length_filter_le _ _
    _ = raw.length := cleanRows_length now raw rows hrows

/-- **C4, witness**: `exTolerableBatch` (bad `start`, bad title, one good
record) has sound routes everywhere, so cleaning succeeds and only drops
rows; and indeed it returns exactly the one good row. -/
theorem clean_tolerates_bad_records_witness :
    cleanSucceedsWithin 0 exTolerableBatch ∧
      (clean_disruptions 0 exTolerableBatch).map (List.map (fun row => row.title))
        = .ok [some "points failure near Amsterdam"] :=
  ⟨clean_tolerates_bad_records 0 exTolerableBatch (by decide),
   by with_unfolding_all rfl⟩

/-! ## C5 — the worst station -/

/-- Twelve same-day in-window rows: station `S11` appears twice,
`S1`–`S10` once each, so over these rows `S11`'s percentile rank is
`10/10 = 1.0` and every other station's is `0`. -/
def exStationImpact : List DbRow :=
  [{ type := "delay", start_time := 0, end_time := 0, affected_stations := some "S11" },
   { type := "delay", start_time := 1, end_time := 1, affected_stations := some "S11" },
   { type := "delay", start_time := 2, end_time := 2, affected_stations := some "S1" },
   { type := "delay", start_time := 3, end_time := 3, affected_stations := some "S2" },
   { type := "delay", start_time := 4, end_time := 4, affected_stations := some "S3" },
   { type := "delay", start_time := 5, end_time := 5, affected_stations := some "S4" },
   { type := "delay", start_time := 6, end_time := 6, affected_stations := some "S5" },
   { type := "delay", start_time := 7, end_time := 7, affected_stations := some "S6" },
   { type := "delay", start_time := 8, end_time := 8, affected_stations := some "S7" },
   { type := "delay", start_time := 9, end_time := 9, affected_stations := some "S8" },
   { type := "delay", start_time := 10, end_time := 10, affected_stations := some "S9" },
   { type := "delay", start_time := 11, end_time := 11, affected_stations := some "S10" }]

/-- Ten rows far outside the 30-day window (`start_time < cutoff = 0`), each
adding two occurrences of one of `S1`–`S10`. -/
def exStationOld : List DbRow :=
  [{ type := "delay", start_time := -10000000, end_time := -10000000, affected_stations := some "S1,S1" },
   { type := "delay", start_time := -10000001, end_time := -10000001, affected_stations := some "S2,S2" },
   { type := "delay", start_time := -10000002, end_time := -10000002, affected_stations := some "S3,S3" },
   { type := "delay", start_time := -10000003, end_time := -10000003, affected_stations := some "S4,S4" },
   { type := "delay", start_time := -10000004, end_time := -10000004, affected_stations := some "S5,S5" },
   { type := "delay", start_time := -10000005, end_time := -10000005, affected_stations := some "S6,S6" },
   { type := "delay", start_time := -10000006, end_time := -10000006, affected_stations := some "S7,S7" },
   { type := "delay", start_time := -10000007, end_time := -10000007, affected_stations := some "S8,S8" },
   { type := "delay", start_time := -10000008, end_time := -10000008, affected_stations := some "S9,S9" },
   { type := "delay", start_time := -10000009, end_time := -10000009, affected_stations := some "S10,S10" }]

/-- A `disruptions` table whose window content is `exStationImpact` but
which also holds the old rows. -/
def exStationTable : List DbRow := exStationImpact ++ exStationOld

/-- C5's reading of the percentile rank: computed over the analysis window
only, not the whole table. -/
def severityPercentileClaim (cutoff : ℤ) (table : List DbRow) (s : String) : ℚ :=
  severity_percentile (windowRows cutoff table) s

/-- C5's reading of `worst_station`: the single station with the highest
percentile rank over the analysis window, present only when that rank
strictly exceeds 0.9. -/
def worstStationClaim (cutoff : ℤ) (table : List DbRow) : Option String :=
  ((sortByB (fun a b => stationLe (windowRows cutoff table) b a)
        (stationKeys (windowRows cutoff table))).filter
      (fun s => decide ((9 : ℚ)/10 < severityPercentileClaim cutoff table s))).head?

/-- **C5, counterexample**: on `exStationTable` the claim fails.  Within the
analysis window station `S11` has the highest percentile rank, `1.0 > 0.9`,
so the claim puts `worst_station = "S11"` on the (nonempty) output; but the
`station_impact` CTE reads `FROM disruptions` with no window filter, the old
rows lift `S1`–`S10` to count 3 against `S11`'s 2, no station's whole-table
percentile exceeds 0.9, and the query attaches `NULL`. -/
theorem worst_station_ignores_window :
    ((complex_analytics_query 0 exStationTable).all
        (fun r => r.worst_station == worstStationClaim 0 exStationTable)) = false := by
  with_unfolding_all rfl

/-- **C5, amended**: `worst_station` is computed from the *entire*
`disruptions` table (the CTE has no window filter), as the first station in
ascending disruption-count order whose percentile rank strictly exceeds 0.9
(`LIMIT 1` with no `ORDER BY` takes the first CTE row that qualifies, which
is the lowest-counting qualifier, not the highest); it is absent exactly
when no station's percentile rank exceeds 0.9, and the same value is
attached to every output row of the run. -/
theorem worst_station_whole_table (cutoff : ℤ) (table : List DbRow)
    (row : MetricsRow) (h : row ∈ complex_analytics_query cutoff table) :
    row.worst_station = worst_station_subquery table ∧
      (worst_station_subquery table = none ↔
        ∀ s ∈ stationKeys table, severity_percentile table s ≤ 9/10) := by
  constructor
  · obtain ⟨i, hi, rfl⟩ := query_row_shape cutoff table row h
    rfl
  · unfold worst_station_subquery
    rw [List.head?_eq_none_iff, List.filter_eq_nil_iff]
    constructor
    · intro hall s hs
      have h2 := hall s (by unfold station_impact; exact mem_sortByB.mpr hs)
      simpa [not_lt] using h2
    · intro hle s hs
      have hsk : s ∈ stationKeys table := by
        unfold station_impact at hs; exact mem_sortByB.mp hs
      simpa [not_lt] using hle s hsk

/-- **C5, witness**: on the window-only table `exStationImpact` the single
output row carries `worst_station = "S11"`, the value of the subquery. -/
theorem worst_station_whole_table_witness :
    (⟨0, "delay", 12, 0, 12, some "S11", 0⟩ : MetricsRow)
        ∈ complex_analytics_query 0 exStationImpact ∧
      (⟨0, "delay", 12, 0, 12, some "S11", 0⟩ : MetricsRow).worst_station
        = worst_station_subquery exStationImpact := by
  have hmem : (⟨0, "delay", 12, 0, 12, some "S11", 0⟩ : MetricsRow)
      ∈ complex_analytics_query 0 exStationImpact :=
    of_decide_eq_true (by with_unfolding_all rfl)
  exact ⟨hmem, (worst_station_whole_table 0 exStationImpact _ hmem).1⟩

/-! ## C6 and C7 — impact classification and the row invariant -/

theorem mem_cleanRows (now : ℤ) :
    ∀ (raw : List RawRecord) (rows : List CleanedRow) (row : CleanedRow),
      cleanRows now raw = .ok rows → row ∈ rows →
        ∃ r ∈ raw, cleanRow now r = .ok row := by
  intro raw
  induction raw with
  | nil => intro rows row h hrow; cases h; cases hrow
  | cons r rs ih =>
    intro rows row h hrow
    unfold cleanRows at h
    split at h
    · cases h
    · rename_i first hfirst
      split at h
      · cases h
      · rename_i rest hrest
        cases h
        rcases List.mem_cons.mp hrow with hr | hr
        · exact ⟨r, List.mem_cons_self r rs, hr ▸ hfirst⟩
        · obtain ⟨r', hr', hc'⟩ := ih rest row hrest hr
          exact ⟨r', List.mem_cons_of_mem r hr', hc'⟩

/-- Every row of the Cleaner's output passed the final filters and came from
cleaning one input record. -/
theorem mem_clean_disruptions (now : ℤ) (raw : List RawRecord)
    (rows : List CleanedRow) (row : CleanedRow)
    (h : clean_disruptions now raw = .ok rows) (hrow : row ∈ rows) :
    keepRow row = true ∧ ∃ r ∈ raw, cleanRow now r = .ok row := by
  unfold clean_disruptions at h
  cases hall : cleanRows now raw with
  | error e => rw [hall] at h; cases h
  | ok all =>
    rw [hall] at h
    simp only [Except.map, Except.ok.injEq] at h
    subst h
    have hmem := List.mem_filter.mp hrow
    exact ⟨hmem.2, mem_cleanRows now raw all row hall hmem.1⟩

theorem cleanRow_impact (now : ℤ) (r : RawRecord) (row : CleanedRow)
    (h : cleanRow now r = .ok row) :
    row.impact_level = calculate_impact row.type row.duration_minutes := by
  unfold cleanRow at h
  split at h
  · cases h
  · cases h; rfl

/-- **C6**: every record the Cleaner outputs is classified by first-match
precedence on its (lower-cased) type and duration: `"cancellation"` gives 5
whatever the duration; otherwise more than 120 minutes gives 4, more than 60
gives 3, anything else 2. -/
theorem impact_classification (now : ℤ) (raw : List RawRecord)
    (rows : List CleanedRow) (row : CleanedRow) (d : ℚ)
    (h : clean_disruptions now raw = .ok rows) (hrow : row ∈ rows)
    (hd : row.duration_minutes = some d) :
    row.impact_level =
      if row.type = some "cancellation" then 5
      else if 120 < d then 4
      else if 60 < d then 3
      else 2 := by
  obtain ⟨-, r, -, hclean⟩ := mem_clean_disruptions now raw rows row h hrow
  rw [cleanRow_impact now r row hclean]
  unfold calculate_impact
  rw [hd]
  simp only [gtNaN, decide_eq_true_eq]

/-- A 10-minute cancellation (the C6 classification scenario). -/
def exCancShort : RawRecord :=
  { type := some "cancellation"
    title := some "cancelled intercity service"
    start := some "2024-01-01T00:00:00"
    end_ := some "2024-01-01T00:10:00"
    routes := some [] }

/-- The cleaned row produced from `exCancShort`. -/
def exCancShortRow : CleanedRow :=
  { type := some "cancellation"
    title := some "cancelled intercity service"
    start := some "2024-01-01T00:00:00"
    end_ := some "2024-01-01T00:10:00"
    routes := some []
    start_time := some 1704067200
    end_time := 1704067800
    duration_minutes := some 10
    is_ongoing := false
    impact_level := 5
    affected_stations := none }

/-- **C6, witness**: a 10-minute cancellation is kept and classified 5
despite its short duration. -/
theorem impact_classification_witness :
    clean_disruptions 0 [exCancShort] = .ok [exCancShortRow] ∧
      exCancShortRow.duration_minutes = some 10 ∧
      exCancShortRow.impact_level = 5 := by
  have h : clean_disruptions 0 [exCancShort] = .ok [exCancShortRow] := by
    with_unfolding_all rfl
  have h5 := impact_classification 0 [exCancShort] [exCancShortRow] exCancShortRow 10 h
    (List.mem_singleton.mpr rfl) rfl
  refine ⟨h, rfl, ?_⟩
  rw [h5]
  simp [exCancShortRow]

/-- **C7**: every row the Cleaner outputs satisfies the invariant
`duration_minutes ≥ 0` (in particular the duration is a real number, not
`NaN`) and `impact_level ∈ {2, 3, 4, 5}`. -/
theorem cleaned_row_invariant (now : ℤ) (raw : List RawRecord)
    (rows : List CleanedRow) (row : CleanedRow)
    (h : clean_disruptions now raw = .ok rows) (hrow : row ∈ rows) :
    (∃ d, row.duration_minutes = some d ∧ 0 ≤ d) ∧
      (row.impact_level = 2 ∨ row.impact_level = 3 ∨
        row.impact_level = 4 ∨ row.impact_level = 5) := by
  obtain ⟨hkeep, r, -, hclean⟩ := mem_clean_disruptions now raw rows row h hrow
  constructor
  · unfold keepRow at hkeep
    rcases hdm : row.duration_minutes with - | d
    · rw [hdm] at hkeep; simp at hkeep
    · rw [hdm] at hkeep
      simp only [Bool.and_eq_true, decide_eq_true_eq] at hkeep
      exact ⟨d, rfl, hkeep.2⟩
  · rw [cleanRow_impact now r row hclean]
    unfold calculate_impact
    split_ifs <;> decide

/-- The cleaned row produced from `exGood`. -/
def exGoodRow : CleanedRow :=
  { type := some "delay"
    title := some "points failure near Amsterdam"
    start := some "2024-01-02T10:00:00"
    end_ := some "2024-01-02T11:30:00"
    routes := some [⟨some "ASD"⟩, ⟨some "UT"⟩]
    start_time := some 1704189600
    end_time := 1704195000
    duration_minutes := some 90
    is_ongoing := false
    impact_level := 3
    affected_stations := some "ASD,UT" }

/-- **C7, witness**: the 90-minute delay `exGood` is kept, its duration is
non-negative and its impact level lies in `{2, 3, 4, 5}`. -/
theorem cleaned_row_invariant_witness :
    clean_disruptions 0 [exGood] = .ok [exGoodRow] ∧
      (∃ d, exGoodRow.duration_minutes = some d ∧ 0 ≤ d) ∧
      (exGoodRow.impact_level = 2 ∨ exGoodRow.impact_level = 3 ∨
        exGoodRow.impact_level = 4 ∨ exGoodRow.impact_level = 5) := by
  have h : clean_disruptions 0 [exGood] = .ok [exGoodRow] := by
    with_unfolding_all rfl
  exact ⟨h, cleaned_row_invariant 0 [exGood] [exGoodRow] exGoodRow h
    (List.mem_singleton.mpr rfl)⟩

/-! ## C8 — degenerate aggregator inputs -/

/-- A table naming a single distinct station in every row. -/
def exSingleStation : List DbRow :=
  [{ type := "delay", start_time := 0, end_time := 60, affected_stations := some "UT" },
   { type := "delay", start_time := 86400, end_time := 86460, affected_stations := some "UT" }]

/-- **C8**: the Aggregator never fails on degenerate input: an empty
filtered window yields an empty metrics sequence, and with at most one
distinct station the percentile rank short-circuits to `0` (no division by
zero) so `worst_station` is absent from every output row. -/
theorem aggregator_degenerate_inputs (cutoff : ℤ) (table : List DbRow) :
    (windowRows cutoff table = [] → complex_analytics_query cutoff table = []) ∧
      ((stationKeys table).length ≤ 1 →
        ∀ row ∈ complex_analytics_query cutoff table, row.worst_station = none) := by
  constructor
  · intro hw
    have hkeys : dmKeys cutoff table = [] := by
      unfold dmKeys
      rw [hw]
      rfl
    unfold complex_analytics_query
    rw [hkeys]
    rfl
  · intro hn row hrow
    obtain ⟨i, hi, rfl⟩ := query_row_shape cutoff table row hrow
    show worst_station_subquery table = none
    unfold worst_station_subquery
    rw [List.head?_eq_none_iff, List.filter_eq_nil_iff]
    intro s hs
    have hpr : severity_percentile table s = 0 := by
      unfold severity_percentile
      rw [if_pos hn]
    rw [hpr]
    norm_num

/-- **C8, witness**: the empty table gives the empty result, and on the
one-station table `exSingleStation` the (two-row, nonempty) output carries
no `worst_station` anywhere. -/
theorem aggregator_degenerate_inputs_witness :
    complex_analytics_query 0 ([] : List DbRow) = [] ∧
      (complex_analytics_query 0 exSingleStation).length = 2 ∧
      (complex_analytics_query 0 exSingleStation).all
        (fun r => r.worst_station == none) = true := by
  refine ⟨(aggregator_degenerate_inputs 0 []).1 rfl, by with_unfolding_all rfl, ?_⟩
  rw [List.all_eq_true]
  intro r hr
  have hnone := (aggregator_degenerate_inputs 0 exSingleStation).2 (by decide) r hr
  simp [hnone]

/-! ## C9 — idempotence of cleaning -/

theorem toNat_ofNat_lt {n : ℕ} (h : n < 55296) : (Char.ofNat n).toNat = n := by
  unfold Char.ofNat
  split
  · rfl
  · rename_i h2
    exact absurd (Or.inl h) h2

theorem lowerChar_idem (c : Char) : lowerChar (lowerChar c) = lowerChar c := by
  unfold lowerChar
  by_cases h : 65 ≤ c.toNat ∧ c.toNat ≤ 90
  · rw [if_pos h, if_neg]
    intro hc
    rw [toNat_ofNat_lt (by omega)] at hc
    omega
  · rw [if_neg h, if_neg h]

theorem map_lowerChar_idem (l : List Char) :
    (l.map lowerChar).map lowerChar = l.map lowerChar := by
  induction l with
  | nil => rfl
  | cons c t ih => simp [lowerChar_idem, ih]

theorem py_lower_idem (s : String) : py_lower (py_lower s) = py_lower s :=
  congrArg String.mk (map_lowerChar_idem s.data)

theorem py_strip_data (s : String) :
    py_strip s = ⟨List.rdropWhile wsChar (List.dropWhile wsChar s.data)⟩ := rfl

/-- A list whose front is whitespace-stable stays so after trimming the
back: removing tail elements never exposes a new head. -/
theorem dropWhile_rdropWhile {α : Type} (p : α → Bool) (x : List α)
    (hx : List.dropWhile p x = x) :
    List.dropWhile p (List.rdropWhile p x) = List.rdropWhile p x := by
  obtain ⟨t, ht⟩ := List.rdropWhile_prefix p x
  cases hy : List.rdropWhile p x with
  | nil => rfl
  | cons a ys =>
    rw [List.dropWhile_cons]
    have hxa : x = a :: (ys ++ t) := by rw [← ht, hy]; rfl
    have hpa : ¬ p a = true := by
      intro hp
      rw [hxa, List.dropWhile_cons, if_pos hp] at hx
      have hlen := congrArg List.length hx
      have hle := (List.dropWhile_sublist (p := p) (l := ys ++ t)).length_le
      simp only [List.length_cons] at hlen
      omega
    rw [if_neg hpa]

theorem py_strip_idem (s : String) : py_strip (py_strip s) = py_strip s := by
  rw [py_strip_data s, py_strip_data]
  apply congrArg String.mk
  show List.rdropWhile wsChar
      (List.dropWhile wsChar (List.rdropWhile wsChar (List.dropWhile wsChar s.data)))
    = List.rdropWhile wsChar (List.dropWhile wsChar s.data)
  rw [dropWhile_rdropWhile wsChar _ (List.dropWhile_idempotent wsChar s.data),
    List.rdropWhile_idempotent]

theorem option_map_idem {α : Type} {f : α → α} (hf : ∀ x, f (f x) = f x)
    (o : Option α) : (o.map f).map f = o.map f := by
  cases o with
  | none => rfl
  | some x => exact congrArg some (hf x)

/-- A kept cleaned row, re-expressed as a raw record, cleans to itself:
lower-casing and trimming are idempotent, the preserved `start`/`end` text
re-parses identically (so the duration and the filters are unchanged), and a
kept row's `end` parsed, so the `fillna` time plays no role. -/
theorem cleanRow_reclean (now now2 : ℤ) (r : RawRecord) (row : CleanedRow)
    (h : cleanRow now r = .ok row) (hk : keepRow row = true) :
    cleanRow now2 (rowToRaw row) = .ok row := by
  unfold cleanRow at h
  split at h
  · cases h
  · rename_i stations hst
    rcases hse : pd_to_datetime r.start with - | st
    · rw [hse] at h
      cases h
      simp [keepRow] at hk
    · rcases hee : pd_to_datetime r.end_ with - | en
      · rw [hse, hee] at h
        cases h
        simp [keepRow] at hk
      · rw [hse, hee] at h
        cases h
        have hty := option_map_idem py_lower_idem r.type
        have hti := option_map_idem py_strip_idem r.title
        unfold cleanRow rowToRaw
        simp only [hse, hee, hst, hty, hti, Option.getD_some]

theorem cleanRows_reclean (now2 : ℤ) :
    ∀ (rows : List CleanedRow),
      (∀ row ∈ rows, cleanRow now2 (rowToRaw row) = .ok row) →
      cleanRows now2 (rows.map rowToRaw) = .ok rows := by
  intro rows
  induction rows with
  | nil => intro _; rfl
  | cons row t ih =>
    intro hall
    have h1 := hall row (List.mem_cons_self row t)
    have h2 := ih (fun x hx => hall x (List.mem_cons_of_mem row hx))
    simp [cleanRows, h1, h2]

/-- **C9**: cleaning is idempotent.  Re-expressing the Cleaner's output rows
as raw records (the cleaned frame still carries `type`, `title`, `start`,
`end` and `routes`) and cleaning again — at any later time — returns exactly
the same rows: normalization, timestamp parsing and the drop filters change
nothing on a second pass.  (This is full row equality, so in particular the
non-derived fields agree byte for byte.) -/
theorem cleaning_idempotent (now now2 : ℤ) (raw : List RawRecord)
    (rows : List CleanedRow) (h : clean_disruptions now raw = .ok rows) :
    clean_disruptions now2 (rows.map rowToRaw) = .ok rows := by
  have hall : ∀ row ∈ rows, cleanRow now2 (rowToRaw row) = .ok row := by
    intro row hrow
    obtain ⟨hk, r, -, hcr⟩ := mem_clean_disruptions now raw rows row h hrow
    exact cleanRow_reclean now now2 r row hcr hk
  have hkeep : ∀ row ∈ rows, keepRow row = true :=
    fun row hrow => (mem_clean_disruptions now raw rows row h hrow).1
  unfold clean_disruptions
  rw [cleanRows_reclean now2 rows hall]
  simp only [Except.map, Except.ok.injEq]
  exact List.filter_eq_self.mpr hkeep

/-- **C9, witness**: cleaning `[exGood, exCancShort]` and re-cleaning its
output (at a different "now") reproduces the two rows exactly. -/
theorem cleaning_idempotent_witness :
    clean_disruptions 5 [exGood, exCancShort] = .ok [exGoodRow, exCancShortRow] ∧
      clean_disruptions 99 ([exGoodRow, exCancShortRow].map rowToRaw)
        = .ok [exGoodRow, exCancShortRow] := by
  have h : clean_disruptions 5 [exGood, exCancShort] = .ok [exGoodRow, exCancShortRow] := by
    with_unfolding_all rfl
  exact ⟨h, cleaning_idempotent 5 99 _ _ h⟩

/-! ## C10 — no effect on the input -/

/-- **C10**: `clean_disruptions` leaves its input unchanged: in the call
model `clean_disruptions_frames`, where `df = raw_df.copy()` makes every
column assignment and row filter act on a distinct frame object, the
caller's `raw_df` after the call is exactly the input frame; the function's
only output is its returned frame, and it performs no store writes. -/
theorem clean_disruptions_input_unchanged (now : ℤ) (raw_df : List RawRecord) :
    (clean_disruptions_frames now raw_df).1 = raw_df := rfl
